import Mathlib

/-!
Verification of the superplane workflow-execution core and the Semaphore
`OnPipelineDone` trigger.

The event router, queue worker and node executor are described by the
specification but their Go sources are not part of the excerpt; the
definitions in the `Core` namespace are therefore modelled from the spec.
The `Semaphore` namespace embeds `pkg/integrations/semaphore/on_pipeline_done.go`
directly.
-/

namespace Core

/-- Modelled from the spec: Execution states
`pending → running → {completed | failed | waiting}`; `waiting → {running | canceled}`. -/
inductive ExecState where
  | pending
  | running
  | completed
  | failed
  | waiting
  | canceled
deriving DecidableEq, Repr, Fintype

/-- Modelled from the spec: terminal states are `completed`, `failed`, `canceled`. -/
def isTerminal : ExecState → Bool
  | .completed => true
  | .failed => true
  | .canceled => true
  | _ => false

/-- Modelled from the spec: the allowed transitions of the Execution state machine. -/
def allowedTransition : ExecState → ExecState → Bool
  | .pending, .running => true
  | .running, .completed => true
  | .running, .failed => true
  | .running, .waiting => true
  | .waiting, .running => true
  | .waiting, .canceled => true
  | _, _ => false

/-- Modelled from the spec: a write to an Execution's state is accepted only if it
follows the state machine; otherwise it is rejected and the state is unchanged. -/
def applyWrite (s t : ExecState) : ExecState :=
  if allowedTransition s t then t else s

/-- Modelled from the spec: the result of one node execution as recorded on the
Execution row, plus the events emitted on output channels. -/
structure ExecResult where
  state : ExecState
  errorMessage : Option String
  outputData : Option String
  emitted : List (String × String)
deriving DecidableEq, Repr

/-- Modelled from the spec: run a Component's `Execute` step. On success the
Execution completes, output is persisted and one event is emitted per declared
output channel that carries a non-empty payload; on error the Execution fails
with the error message persisted and no event is emitted. -/
def runExecute (outcome : Except String (List (String × String))) : ExecResult :=
  match outcome with
  | .error msg =>
      { state := .failed, errorMessage := some msg, outputData := none, emitted := [] }
  | .ok outs =>
      { state := .completed
        errorMessage := none
        outputData := some (String.intercalate "," (outs.map (·.2)))
        emitted := outs.filter (fun o => o.2 ≠ "") }

/-- Modelled from the spec: the Node Executor invokes `Setup` (config validation)
then `Execute`; if `Setup` fails the Execution transitions directly to `failed`
with the validation error and `Execute` is never called. The boolean records
whether `Execute` was invoked. -/
def runNode (setupResult : Except String Unit)
    (executeOutcome : Except String (List (String × String))) : ExecResult × Bool :=
  match setupResult with
  | .error e =>
      ({ state := .failed, errorMessage := some e, outputData := none, emitted := [] }, false)
  | .ok _ => (runExecute executeOutcome, true)

/-- Modelled from the spec: an Execution row keyed by its QueueItem id. -/
structure Execution where
  queueItemId : Nat
  state : ExecState
deriving DecidableEq, Repr

/-- Modelled from the spec: the Queue Worker's durable state — Execution rows and
the log of Component invocations (one entry per `Execute` call, tagged with the
QueueItem id it was invoked for). -/
structure WorkerState where
  executions : List Execution
  invocations : List Nat
deriving DecidableEq, Repr

/-- Modelled from the spec: one delivery of a QueueItem to the Queue Worker. If an
Execution already exists for that QueueItem id (non-terminal or terminal), the
delivery is acknowledged and dropped without side effects; on first delivery the
Execution row is created and the Component is invoked. -/
def processDelivery (ws : WorkerState) (qid : Nat) : WorkerState :=
  if ws.executions.any (fun ex => ex.queueItemId == qid) then ws
  else
    { executions := ⟨qid, .pending⟩ :: ws.executions
      invocations := qid :: ws.invocations }

/-- Modelled from the spec: a small regular-expression language standing for the
regex patterns accepted by the `matches` predicate. -/
inductive Regex where
  | emptyset
  | eps
  | chr (c : Char)
  | anyChar
  | cat (a b : Regex)
  | alt (a b : Regex)
  | star (a : Regex)
deriving DecidableEq, Repr

/-- Whether the regex accepts the empty word. -/
def Regex.nullable : Regex → Bool
  | .emptyset => false
  | .eps => true
  | .chr _ => false
  | .anyChar => false
  | .cat a b => a.nullable && b.nullable
  | .alt a b => a.nullable || b.nullable
  | .star _ => true

/-- Brzozowski derivative of the regex by one character. -/
def Regex.deriv : Regex → Char → Regex
  | .emptyset, _ => .emptyset
  | .eps, _ => .emptyset
  | .chr c, d => if c = d then .eps else .emptyset
  | .anyChar, _ => .eps
  | .cat a b, d =>
      if a.nullable then .alt (.cat (a.deriv d) b) (b.deriv d) else .cat (a.deriv d) b
  | .alt a b, d => .alt (a.deriv d) (b.deriv d)
  | .star a, d => .cat (a.deriv d) (.star a)

/-- Derivative-based matching of a character list against a regex. -/
def Regex.rmatchList : Regex → List Char → Bool
  | r, [] => r.nullable
  | r, c :: cs => (r.deriv c).rmatchList cs

/-- Whether the regex matches the whole string. -/
def Regex.rmatch (r : Regex) (s : String) : Bool :=
  r.rmatchList s.toList

/-- The regex accepting exactly the given literal string. -/
def strRegex (s : String) : Regex :=
  s.toList.foldr (fun c acc => .cat (.chr c) acc) .eps

/-- The Lean rendering of the Go pattern `^fail.*` under unanchored search:
a string matches iff it begins with the literal `fail`. -/
def failPattern : Regex :=
  .cat (strRegex "fail") (.star .anyChar)

/-- Modelled from the spec: a predicate is a filter rule — `equals`, `matches`
(regex) or set-membership — applied to event data. -/
inductive Predicate where
  | equalsP (value : String)
  | matchesP (r : Regex)
  | memberOf (values : List String)
deriving DecidableEq, Repr

/-- Modelled from the spec: evaluate one predicate against a data string. -/
def predicateMatches : Predicate → String → Bool
  | .equalsP v, d => d == v
  | .matchesP r, d => r.rmatch d
  | .memberOf vs, d => vs.contains d

/-- Modelled from the spec: the trigger-filter matching policy — the value passes
when any of the configured predicates matches it. -/
def matchesAnyPredicate (ps : List Predicate) (v : String) : Bool :=
  ps.any (fun p => predicateMatches p v)

/-- Modelled from the spec: the state of an Event — `pending` until routed. -/
inductive EventState where
  | pending
  | routed
deriving DecidableEq, Repr

/-- Modelled from the spec: an Event record (id, workflow, origin node, payload,
routing state). -/
structure Event where
  id : Nat
  workflowId : Nat
  nodeId : Nat
  data : String
  state : EventState
deriving DecidableEq, Repr

/-- Modelled from the spec: a QueueItem pairs one Event with one destination node;
`(eventId, nodeId)` is its uniqueness key. -/
structure QueueItem where
  eventId : Nat
  nodeId : Nat
deriving DecidableEq, Repr

/-- Modelled from the spec: a workflow edge with an optional routing predicate. -/
structure Edge where
  fromNode : Nat
  toNode : Nat
  pred : Option Predicate
deriving DecidableEq, Repr

/-- Modelled from the spec: a Workflow is a directed graph of edges. -/
structure Workflow where
  edges : List Edge
deriving DecidableEq, Repr

/-- Modelled from the spec: whether an edge leads the given event onward — its
`from` endpoint is the event's origin node and its routing predicate (if any),
evaluated with the trigger-filter policy, matches the event's data. -/
def edgeMatches (ed : Edge) (e : Event) : Bool :=
  ed.fromNode == e.nodeId &&
    (match ed.pred with
     | none => true
     | some p => matchesAnyPredicate [p] e.data)

/-- Modelled from the spec: the downstream nodes of an event — the targets of all
edges leaving the event's origin node whose routing predicate matches the
event's data. -/
def downstreamNodes (wf : Workflow) (e : Event) : List Nat :=
  (wf.edges.filter (fun ed => edgeMatches ed e)).map (·.toNode)

/-- Modelled from the spec: the durable state shared by routers — the Event store
and the QueueItem store. -/
structure RouterState where
  events : List Event
  queueItems : List QueueItem
deriving DecidableEq, Repr

/-- Modelled from the spec: insert a QueueItem subject to the uniqueness
constraint on `(eventId, nodeId)` — a duplicate insert is a no-op. -/
def addItem (q : QueueItem) (qs : List QueueItem) : List QueueItem :=
  if q ∈ qs then qs else q :: qs

/-- Modelled from the spec: create one QueueItem per downstream node for the
event, each under the uniqueness constraint. -/
def addItems (qs : List QueueItem) (eid : Nat) (ns : List Nat) : List QueueItem :=
  ns.foldl (fun acc n => addItem ⟨eid, n⟩ acc) qs

/-- Mark the event with the given id as routed. -/
def markRouted (evs : List Event) (eid : Nat) : List Event :=
  evs.map (fun e => if e.id == eid then { e with state := .routed } else e)

/-- The state recorded for the event with the given id, if present. -/
def eventStateOf (s : RouterState) (eid : Nat) : Option EventState :=
  (s.events.find? (fun e => e.id == eid)).map (·.state)

/-- The QueueItems existing for the given event id. -/
def itemsFor (qs : List QueueItem) (eid : Nat) : List QueueItem :=
  qs.filter (fun q => q.eventId == eid)

/-- Modelled from the spec: one routing pass over one event. A pending event gets
one QueueItem per matching downstream node and is marked routed in the same
transaction; a routed or unknown event is left untouched. Zero matching
downstream nodes mark the event routed with no QueueItems. -/
def routeEvent (wf : Workflow) (s : RouterState) (eid : Nat) : RouterState :=
  match s.events.find? (fun e => e.id == eid) with
  | none => s
  | some e =>
    match e.state with
    | .routed => s
    | .pending =>
        { events := markRouted s.events eid
          queueItems := addItems s.queueItems eid (downstreamNodes wf e) }

/-- Modelled from the spec: a routing pass interrupted after durably creating the
QueueItems for the first `k` downstream nodes but before the transaction that
marks the event routed commits — the event stays pending. -/
def interruptedRoute (wf : Workflow) (s : RouterState) (eid : Nat) (k : Nat) : RouterState :=
  match s.events.find? (fun e => e.id == eid) with
  | none => s
  | some e =>
    match e.state with
    | .routed => s
    | .pending =>
        { events := s.events
          queueItems := addItems s.queueItems eid ((downstreamNodes wf e).take k) }

/-- Modelled from the spec: routing with workflow resolution — a missing workflow
is a per-event error that leaves the state untouched, while a resolved workflow
routes normally (the zero-downstream branch included) and is not an error. -/
def routeEventChecked (wfLookup : Option Workflow) (s : RouterState) (eid : Nat) :
    Except String RouterState :=
  match wfLookup with
  | none => .error "workflow not found"
  | some wf => .ok (routeEvent wf s eid)

/-- Modelled from the spec: the Events an Execution's emissions become — one
pending Event per emitted channel, originating at the executing node, with
fresh consecutive ids. -/
def emittedEvents (wfId origin baseId : Nat) (emitted : List (String × String)) : List Event :=
  (List.range emitted.length).zip emitted |>.map
    (fun p => { id := baseId + p.1, workflowId := wfId, nodeId := origin
                data := p.2.2, state := .pending })

/-- Modelled from the spec: append the Events produced by an Execution to the
Event store; the QueueItem store is untouched — only the Router creates
QueueItems, and only from stored Events. -/
def applyEmitted (s : RouterState) (wfId origin baseId : Nat)
    (emitted : List (String × String)) : RouterState :=
  { events := s.events ++ emittedEvents wfId origin baseId emitted
    queueItems := s.queueItems }

/-- A sample workflow: node 0 fans out to nodes 1 and 2 with unconditional
edges. -/
def sampleWorkflow : Workflow := ⟨[⟨0, 1, none⟩, ⟨0, 2, none⟩]⟩

/-- A sample pending event at the fan-out origin. -/
def sampleEvent : Event := ⟨7, 1, 0, "d", .pending⟩

/-- A router state holding only the sample event. -/
def sampleState : RouterState := ⟨[sampleEvent], []⟩

/-- A sample pending event at a node with no outgoing edges. -/
def isolatedEvent : Event := ⟨8, 1, 5, "d", .pending⟩

/-- A router state holding only the isolated event. -/
def isolatedState : RouterState := ⟨[isolatedEvent], []⟩

end Core

namespace Semaphore

/-- A Semaphore project as stored in trigger metadata (`Project` with ID, Name,
URL as used by `on_pipeline_done.go`). -/
structure Project where
  id : String
  name : String
  url : String
deriving DecidableEq, Repr

/-- Embeds `OnPipelineDoneMetadata`: the trigger metadata, holding the provisioned
project when setup already ran. -/
structure OnPipelineDoneMetadata where
  project : Option Project
deriving DecidableEq, Repr

/-- Embeds `OnPipelineDoneConfiguration`: project plus the optional ref, result and
pipeline-file filters. -/
structure OnPipelineDoneConfiguration where
  project : String
  refs : List Core.Predicate
  results : List String
  pipelines : List Core.Predicate
deriving DecidableEq, Repr

/-- The part of the Semaphore project API response read by `Setup`
(`project.Metadata.ProjectID` / `ProjectName`). -/
structure ProjectResponse where
  projectID : String
  projectName : String
deriving DecidableEq, Repr

/-- The observable outcome of one `Setup` call: its returned error (if any) and
which side effects were performed. -/
structure SetupEffects where
  result : Except String Unit
  projectFetched : Bool
  metadataWritten : Option OnPipelineDoneMetadata
  webhookRequested : Option String
deriving Repr

/-- Embeds `OnPipelineDone.Setup` from `on_pipeline_done.go`: decode the stored metadata;
if it already records a project, return nil at once; otherwise decode and
validate the configuration, resolve the project through the API client, store
the metadata and request a webhook. The fallible collaborators (metadata
decoding, configuration decoding, client construction, the project fetch, the
metadata write, the webhook request) are passed in as their results. -/
def onPipelineDoneSetup
    (metadataDecode : Except String OnPipelineDoneMetadata)
    (configDecode : Except String OnPipelineDoneConfiguration)
    (newClientResult : Except String String)
    (getProject : String → Except String ProjectResponse)
    (metadataSetResult : Except String Unit)
    (requestWebhookResult : Except String Unit) : SetupEffects :=
  match metadataDecode with
  | .error e =>
      { result := .error ("failed to parse metadata: " ++ e)
        projectFetched := false, metadataWritten := none, webhookRequested := none }
  | .ok metadata =>
    if metadata.project.isSome then
      { result := .ok ()
        projectFetched := false, metadataWritten := none, webhookRequested := none }
    else
      match configDecode with
      | .error e =>
          { result := .error ("failed to decode configuration: " ++ e)
            projectFetched := false, metadataWritten := none, webhookRequested := none }
      | .ok config =>
        if config.project = "" then
          { result := .error "project is required"
            projectFetched := false, metadataWritten := none, webhookRequested := none }
        else if metadata.project.isSome &&
            (match metadata.project with
             | some p => config.project = p.id || config.project = p.name
             | none => false) then
          { result := .ok ()
            projectFetched := false, metadataWritten := none, webhookRequested := none }
        else
          match newClientResult with
          | .error e =>
              { result := .error e
                projectFetched := false, metadataWritten := none, webhookRequested := none }
          | .ok orgURL =>
            match getProject config.project with
            | .error e =>
                { result := .error ("error finding project " ++ config.project ++ ": " ++ e)
                  projectFetched := true, metadataWritten := none, webhookRequested := none }
            | .ok project =>
              let md : OnPipelineDoneMetadata :=
                { project := some
                    { id := project.projectID
                      name := project.projectName
                      url := orgURL ++ "/projects/" ++ project.projectID } }
              match metadataSetResult with
              | .error e =>
                  { result := .error ("error setting metadata: " ++ e)
                    projectFetched := true, metadataWritten := some md, webhookRequested := none }
              | .ok _ =>
                  { result := requestWebhookResult
                    projectFetched := true, metadataWritten := some md
                    webhookRequested := some project.projectName }

/-- The payload fields `HandleWebhook` reads through `getNestedString`
(`revision.reference`, `pipeline.result`, `pipeline.working_directory`,
`pipeline.yaml_file_name`); `none` stands for a missing or non-string field. -/
structure PipelinePayload where
  revisionReference : Option String
  pipelineResult : Option String
  workingDirectory : Option String
  yamlFileName : Option String
deriving DecidableEq, Repr

/-- Embeds `strings.TrimPrefix`: drop the prefix when present, else return the string
unchanged. -/
def trimPrefixOf (p s : String) : String :=
  if s.startsWith p then s.drop p.length else s

/-- Embeds `normalizePipelineResult`: lowercase, trim, and map `cancelled` to
`canceled`. -/
def normalizePipelineResult (r : String) : String :=
  let n := (r.trim).toLower
  if n = "cancelled" then "canceled" else n

/-- Embeds `matchesPipelineResult`: whether the result, after normalization, equals one
of the allowed results. -/
def matchesPipelineResult (allowed : List String) (result : String) : Bool :=
  allowed.any (fun a => normalizePipelineResult a == normalizePipelineResult result)

/-- The observable outcome of one `HandleWebhook` call: the HTTP status, whether
the handler returned an error, and whether `Events.Emit` was called. -/
structure WebhookOutcome where
  status : Nat
  errored : Bool
  emitCalled : Bool
deriving DecidableEq, Repr

/-- The ref-filter step of `HandleWebhook` (`some` means early return). -/
def refsCheck (config : OnPipelineDoneConfiguration) (payload : PipelinePayload) :
    Option WebhookOutcome :=
  if config.refs.isEmpty then none
  else
    match payload.revisionReference with
    | none => some { status := 400, errored := true, emitCalled := false }
    | some ref =>
      if ref.trim = "" then some { status := 400, errored := true, emitCalled := false }
      else if Core.matchesAnyPredicate config.refs ref then none
      else some { status := 200, errored := false, emitCalled := false }

/-- The result-filter step of `HandleWebhook` (`some` means early return). -/
def resultsCheck (config : OnPipelineDoneConfiguration) (payload : PipelinePayload) :
    Option WebhookOutcome :=
  if config.results.isEmpty then none
  else
    match payload.pipelineResult with
    | none => some { status := 400, errored := true, emitCalled := false }
    | some result =>
      if result.trim = "" then some { status := 400, errored := true, emitCalled := false }
      else if matchesPipelineResult config.results result then none
      else some { status := 200, errored := false, emitCalled := false }

/-- The pipeline-file-filter step of `HandleWebhook` (`some` means early
return). -/
def pipelinesCheck (config : OnPipelineDoneConfiguration) (payload : PipelinePayload) :
    Option WebhookOutcome :=
  if config.pipelines.isEmpty then none
  else
    match payload.workingDirectory with
    | none => some { status := 400, errored := true, emitCalled := false }
    | some wd =>
      if wd.trim = "" then some { status := 400, errored := true, emitCalled := false }
      else
        match payload.yamlFileName with
        | none => some { status := 400, errored := true, emitCalled := false }
        | some file =>
          if file.trim = "" then some { status := 400, errored := true, emitCalled := false }
          else if Core.matchesAnyPredicate config.pipelines (wd ++ "/" ++ file) then none
          else some { status := 200, errored := false, emitCalled := false }

/-- Embeds `OnPipelineDone.HandleWebhook` from `on_pipeline_done.go`: decode the
configuration, check the `X-Semaphore-Signature-256` header (empty when absent),
strip the `sha256=` prefix, fetch the webhook secret, verify the HMAC signature
of the body (the verifier is passed in for `crypto.VerifySignature`, whose
source is outside the excerpt), parse the body, apply the ref / result /
pipeline-file filters, and finally emit the `semaphore.pipeline.done` event. -/
def onPipelineDoneHandleWebhook
    (configDecode : Except String OnPipelineDoneConfiguration)
    (sigHeader : String)
    (secretResult : Except String String)
    (verify : String → String → String → Bool)
    (body : String)
    (parseResult : Except String PipelinePayload)
    (emitResult : Except String Unit) : WebhookOutcome :=
  match configDecode with
  | .error _ => { status := 500, errored := true, emitCalled := false }
  | .ok config =>
    if sigHeader = "" then { status := 403, errored := true, emitCalled := false }
    else
      let sig := trimPrefixOf "sha256=" sigHeader
      if sig = "" then { status := 403, errored := true, emitCalled := false }
      else
        match secretResult with
        | .error _ => { status := 500, errored := true, emitCalled := false }
        | .ok secret =>
          if verify secret body sig then
            match parseResult with
            | .error _ => { status := 400, errored := true, emitCalled := false }
            | .ok payload =>
              match refsCheck config payload with
              | some o => o
              | none =>
                match resultsCheck config payload with
                | some o => o
                | none =>
                  match pipelinesCheck config payload with
                  | some o => o
                  | none =>
                    match emitResult with
                    | .error _ => { status := 500, errored := true, emitCalled := true }
                    | .ok _ => { status := 200, errored := false, emitCalled := true }
          else { status := 403, errored := true, emitCalled := false }

end Semaphore

namespace Core

/-- Writing any target state onto a terminal Execution state is rejected. -/
theorem terminal_write_fixed : ∀ s t : ExecState, isTerminal s = true → applyWrite s t = s := by
  decide

/-- Membership in `addItem`: the inserted item or a previous one. -/
theorem mem_addItem {a q : QueueItem} {qs : List QueueItem} :
    a ∈ addItem q qs ↔ a = q ∨ a ∈ qs := by
  unfold addItem
  split
  · rename_i hq
    constructor
    · exact Or.inr
    · rintro (rfl | h)
      · exact hq
      · exact h
  · exact List.mem_cons

/-- Membership in `addItems`: a previous item, or an item keyed by the routed
event and one of the supplied nodes. -/
theorem mem_addItems {a : QueueItem} {eid : Nat} {ns : List Nat} :
    ∀ {qs : List QueueItem},
      a ∈ addItems qs eid ns ↔ a ∈ qs ∨ (a.eventId = eid ∧ a.nodeId ∈ ns) := by
  induction ns with
  | nil => intro qs; simp [addItems]
  | cons n rest ih =>
    intro qs
    show a ∈ addItems (addItem ⟨eid, n⟩ qs) eid rest ↔ _
    rw [ih, mem_addItem]
    obtain ⟨ae, an⟩ := a
    simp only [QueueItem.mk.injEq, List.mem_cons]
    tauto

/-- Items of an event stay duplicate-free across one constrained insert. -/
theorem itemsFor_addItem_nodup {q : QueueItem} {qs : List QueueItem} {eid : Nat}
    (h : (itemsFor qs eid).Nodup) : (itemsFor (addItem q qs) eid).Nodup := by
  unfold addItem
  split
  · exact h
  · rename_i hq
    unfold itemsFor at *
    rw [List.filter_cons]
    split
    · exact List.Nodup.cons (fun hmem => hq (List.mem_of_mem_filter hmem)) h
    · exact h

/-- Items of an event stay duplicate-free across constrained bulk inserts. -/
theorem itemsFor_addItems_nodup {eid eid' : Nat} {ns : List Nat} :
    ∀ {qs : List QueueItem}, (itemsFor qs eid').Nodup →
      (itemsFor (addItems qs eid ns) eid').Nodup := by
  induction ns with
  | nil => intro qs h; exact h
  | cons n rest ih =>
    intro qs h
    exact ih (itemsFor_addItem_nodup h)

/-- Membership in `itemsFor`. -/
theorem mem_itemsFor {q : QueueItem} {qs : List QueueItem} {eid : Nat} :
    q ∈ itemsFor qs eid ↔ q ∈ qs ∧ q.eventId = eid := by
  unfold itemsFor
  rw [List.mem_filter]
  simp

end Core

namespace Core

/-- Finding an event by id after `markRouted` yields the routed copy of whatever
was found before. -/
theorem find?_markRouted (evs : List Event) (eid : Nat) :
    (markRouted evs eid).find? (fun e => e.id == eid) =
      (evs.find? (fun e => e.id == eid)).map (fun e => { e with state := EventState.routed }) := by
  induction evs with
  | nil => rfl
  | cons e rest ih =>
    rw [show markRouted (e :: rest) eid =
          (if (e.id == eid) = true then { e with state := EventState.routed } else e) ::
            markRouted rest eid from rfl]
    cases h : (e.id == eid) with
    | true =>
      rw [if_pos rfl,
        List.find?_cons_of_pos (p := fun x : Event => x.id == eid)
          (a := { e with state := EventState.routed }) _ h,
        List.find?_cons_of_pos (p := fun x : Event => x.id == eid) _ h]
      rfl
    | false =>
      have hn2 : ¬ ((fun e : Event => e.id == eid) e = true) := by simp [h]
      rw [if_neg (show ¬ (false = true) by simp), List.find?_cons_of_neg (markRouted rest eid) hn2,
        List.find?_cons_of_neg rest hn2]
      exact ih

/-- Unfolding one routing pass over a pending event. -/
theorem routeEvent_pending (wf : Workflow) {s : RouterState} {eid : Nat} {ev : Event}
    (hfind : s.events.find? (fun e => e.id == eid) = some ev)
    (hpend : ev.state = .pending) :
    routeEvent wf s eid =
      { events := markRouted s.events eid
        queueItems := addItems s.queueItems eid (downstreamNodes wf ev) } := by
  unfold routeEvent
  rw [hfind]
  obtain ⟨i, w, n, d, st⟩ := ev
  cases st
  · rfl
  · simp at hpend

/-- Routing an already-routed event is a no-op. -/
theorem routeEvent_routed (ev : Event) {wf : Workflow} {s : RouterState} {eid : Nat}
    (hfind : s.events.find? (fun e => e.id == eid) = some ev)
    (hrouted : ev.state = .routed) :
    routeEvent wf s eid = s := by
  unfold routeEvent
  rw [hfind]
  obtain ⟨i, w, n, d, st⟩ := ev
  cases st
  · simp at hrouted
  · rfl

/-- Unfolding one interrupted routing pass over a pending event. -/
theorem interruptedRoute_pending (wf : Workflow) (k : Nat) {s : RouterState} {eid : Nat} {ev : Event}
    (hfind : s.events.find? (fun e => e.id == eid) = some ev)
    (hpend : ev.state = .pending) :
    interruptedRoute wf s eid k =
      { events := s.events
        queueItems := addItems s.queueItems eid ((downstreamNodes wf ev).take k) } := by
  unfold interruptedRoute
  rw [hfind]
  obtain ⟨i, w, n, d, st⟩ := ev
  cases st
  · rfl
  · simp at hpend

end Core

namespace Core

/-- After creating QueueItems for a subset of the downstream nodes and then for
all of them, the items existing for the event are exactly one per downstream
node. -/
theorem routed_items_perm (qs : List QueueItem) (eid : Nat) (pre ds : List Nat)
    (hfresh : ∀ q ∈ qs, q.eventId ≠ eid)
    (hpre : ∀ n ∈ pre, n ∈ ds)
    (hnd : ds.Nodup) :
    (itemsFor (addItems (addItems qs eid pre) eid ds) eid).Perm
      (ds.map (fun n => QueueItem.mk eid n)) := by
  have hinj : Function.Injective (fun n => QueueItem.mk eid n) := by
    intro a b hab
    simpa using congrArg QueueItem.nodeId hab
  have hempty : itemsFor qs eid = [] := by
    unfold itemsFor
    rw [List.filter_eq_nil_iff]
    intro q hq
    simpa using hfresh q hq
  have nd1 : (itemsFor (addItems (addItems qs eid pre) eid ds) eid).Nodup := by
    apply itemsFor_addItems_nodup
    apply itemsFor_addItems_nodup
    rw [hempty]
    exact List.nodup_nil
  have nd2 : (ds.map (fun n => QueueItem.mk eid n)).Nodup := hnd.map hinj
  rw [List.perm_ext_iff_of_nodup nd1 nd2]
  intro a
  rw [mem_itemsFor, mem_addItems, mem_addItems]
  constructor
  · rintro ⟨(hq | ⟨he, hn⟩) | ⟨he, hn⟩, heid⟩
    · exact absurd heid (hfresh a hq)
    · refine List.mem_map.mpr ⟨a.nodeId, hpre _ hn, ?_⟩
      obtain ⟨ae, an⟩ := a
      cases he
      rfl
    · refine List.mem_map.mpr ⟨a.nodeId, hn, ?_⟩
      obtain ⟨ae, an⟩ := a
      cases he
      rfl
  · intro hmem
    obtain ⟨n, hnds, rfl⟩ := List.mem_map.mp hmem
    exact ⟨Or.inr ⟨rfl, hnds⟩, rfl⟩

end Core

namespace Core

/-- A delivery for a QueueItem that already has an Execution row is dropped
without side effects. -/
theorem processDelivery_existing (ws : WorkerState) (qid : Nat)
    (h : ∃ ex ∈ ws.executions, ex.queueItemId = qid) :
    processDelivery ws qid = ws := by
  obtain ⟨ex, hmem, hq⟩ := h
  unfold processDelivery
  rw [if_pos]
  exact List.any_eq_true.mpr ⟨ex, hmem, by simp [hq]⟩

end Core

/-- C3: Every Execution state write moves forward along the machine
pending → running → {completed | failed | waiting}, waiting → {running | canceled};
once the Execution reaches a terminal state (completed, failed or canceled) no
further write to its state is accepted, so no sequence of writes moves it out of
a terminal state. -/
theorem execution_state_forward_only :
    (∀ s t : Core.ExecState, Core.isTerminal s = true → Core.applyWrite s t = s) ∧
    (∀ s t : Core.ExecState, Core.allowedTransition s t = true →
      (s = .pending ∧ t = .running) ∨
      (s = .running ∧ (t = .completed ∨ t = .failed ∨ t = .waiting)) ∨
      (s = .waiting ∧ (t = .running ∨ t = .canceled))) ∧
    (∀ (l : List Core.ExecState) (s : Core.ExecState), Core.isTerminal s = true →
      l.foldl Core.applyWrite s = s) := by
  refine ⟨Core.terminal_write_fixed, by decide, ?_⟩
  intro l
  induction l with
  | nil => intro s hs; rfl
  | cons t rest ih =>
    intro s hs
    rw [List.foldl_cons, Core.terminal_write_fixed s t hs]
    exact ih s hs

/-- Witness for C3 at a concrete terminal state and write sequence. -/
theorem execution_state_forward_only_witness :
    List.foldl Core.applyWrite .completed [.running, .pending, .waiting] = .completed :=
  execution_state_forward_only.2.2 [.running, .pending, .waiting] .completed (by decide)

/-- C6: when a Component's Setup returns an error, the Execution transitions
directly to failed carrying the validation error, and Execute is never
invoked. -/
theorem setup_failure_skips_execute (e : String)
    (outcome : Except String (List (String × String))) :
    Core.runNode (.error e) outcome =
      ({ state := .failed, errorMessage := some e, outputData := none, emitted := [] }, false) :=
  rfl

/-- C5: when Execute returns an error, the Execution is failed with the error
message persisted, no Event is emitted on any output channel, and the Event
store — the only source of downstream QueueItems — is unchanged, so no
downstream QueueItem can ever arise from the failed Execution. -/
theorem execute_failure_contained (msg : String) (wfId origin baseId : Nat)
    (s : Core.RouterState) :
    Core.runNode (.ok ()) (.error msg) =
      ({ state := .failed, errorMessage := some msg, outputData := none, emitted := [] }, true) ∧
    Core.applyEmitted s wfId origin baseId (Core.runNode (.ok ()) (.error msg)).1.emitted = s := by
  constructor
  · rfl
  · show Core.applyEmitted s wfId origin baseId [] = s
    unfold Core.applyEmitted Core.emittedEvents
    simp

/-- C4: Execution creation is idempotent per QueueItem: a delivery for a
QueueItem that already has an Execution (any state) is acknowledged and dropped
without creating a row or invoking the Component, and any number of deliveries
of the same QueueItem leaves exactly one Execution row and exactly one
Component invocation. -/
theorem execution_creation_idempotent :
    (∀ (ws : Core.WorkerState) (qid : Nat),
       (∃ ex ∈ ws.executions, ex.queueItemId = qid) → Core.processDelivery ws qid = ws) ∧
    (∀ (ws : Core.WorkerState) (qid n : Nat),
       ws.executions.countP (fun ex => ex.queueItemId == qid) = 0 →
       ws.invocations.count qid = 0 →
       (((fun st => Core.processDelivery st qid)^[n + 1] ws).executions.countP
          (fun ex => ex.queueItemId == qid) = 1 ∧
        ((fun st => Core.processDelivery st qid)^[n + 1] ws).invocations.count qid = 1)) := by
  refine ⟨Core.processDelivery_existing, ?_⟩
  intro ws qid n h0 hinv
  have hfirst : Core.processDelivery ws qid =
      { executions := ⟨qid, .pending⟩ :: ws.executions
        invocations := qid :: ws.invocations } := by
    unfold Core.processDelivery
    rw [if_neg]
    intro hany
    obtain ⟨ex, hmem, hp⟩ := List.any_eq_true.mp hany
    exact List.countP_eq_zero.mp h0 ex hmem hp
  have hfix : Core.processDelivery (Core.processDelivery ws qid) qid =
      Core.processDelivery ws qid := by
    rw [hfirst]
    exact Core.processDelivery_existing _ _ ⟨⟨qid, .pending⟩, by simp, rfl⟩
  have hiter : ((fun st => Core.processDelivery st qid)^[n + 1]) ws =
      Core.processDelivery ws qid := by
    rw [Function.iterate_succ_apply]
    exact Function.iterate_fixed (f := fun st => Core.processDelivery st qid) hfix n
  rw [hiter, hfirst]
  refine ⟨?_, ?_⟩
  · rw [List.countP_cons]
    simp [h0]
  · rw [List.count_cons]
    simp [hinv]

/-- Witness for C4: four deliveries of QueueItem 5 to a fresh worker state leave
one Execution row and one invocation. -/
theorem execution_creation_idempotent_witness :
    (((fun st => Core.processDelivery st 5)^[3 + 1] ⟨[], []⟩).executions.countP
       (fun ex => ex.queueItemId == 5) = 1 ∧
     ((fun st => Core.processDelivery st 5)^[3 + 1] ⟨[], []⟩).invocations.count 5 = 1) :=
  execution_creation_idempotent.2 ⟨[], []⟩ 5 3 rfl rfl

namespace Core

/-- Facts about one interrupted routing pass followed by one completed pass on a
pending event: the interruption leaves the event store untouched, the completed
pass marks the event routed, its QueueItems are the two-stage inserts, and a
further pass is a no-op. -/
theorem route_crash_retry_facts (wf : Workflow) (s : RouterState) (eid k : Nat) (ev : Event)
    (hfind : s.events.find? (fun e => e.id == eid) = some ev)
    (hpend : ev.state = .pending) :
    (interruptedRoute wf s eid k).events = s.events ∧
    (routeEvent wf (interruptedRoute wf s eid k) eid).events = markRouted s.events eid ∧
    (routeEvent wf (interruptedRoute wf s eid k) eid).queueItems =
      addItems (addItems s.queueItems eid ((downstreamNodes wf ev).take k)) eid
        (downstreamNodes wf ev) ∧
    routeEvent wf (routeEvent wf (interruptedRoute wf s eid k) eid) eid =
      routeEvent wf (interruptedRoute wf s eid k) eid := by
  have h1 := interruptedRoute_pending wf k hfind hpend
  have hfind1 : (interruptedRoute wf s eid k).events.find? (fun e => e.id == eid) = some ev := by
    rw [h1]
    exact hfind
  have h2 := routeEvent_pending wf hfind1 hpend
  have hev2 : (routeEvent wf (interruptedRoute wf s eid k) eid).events =
      markRouted s.events eid := by
    rw [h2, h1]
  refine ⟨by rw [h1], hev2, by rw [h2, h1], ?_⟩
  apply routeEvent_routed { ev with state := .routed }
  · rw [hev2, find?_markRouted, hfind]
    rfl
  · rfl

end Core

/-- C1: routing an Event is atomic with marking it routed: an interruption after
creating k of N QueueItems leaves the Event pending, and a subsequent routing
pass creates the remaining items — ending with exactly one QueueItem per
matching downstream node — and marks the Event routed exactly once, any further
pass being a no-op. -/
theorem routing_atomic_crash_retry (wf : Core.Workflow) (s : Core.RouterState)
    (eid k : Nat) (ev : Core.Event)
    (hfind : s.events.find? (fun e => e.id == eid) = some ev)
    (hpend : ev.state = .pending)
    (hfresh : ∀ q ∈ s.queueItems, q.eventId ≠ eid)
    (hnd : (Core.downstreamNodes wf ev).Nodup)
    (_hk : k < (Core.downstreamNodes wf ev).length) :
    Core.eventStateOf (Core.interruptedRoute wf s eid k) eid = some .pending ∧
    Core.eventStateOf (Core.routeEvent wf (Core.interruptedRoute wf s eid k) eid) eid
      = some .routed ∧
    (Core.itemsFor (Core.routeEvent wf (Core.interruptedRoute wf s eid k) eid).queueItems
        eid).Perm
      ((Core.downstreamNodes wf ev).map (fun n => Core.QueueItem.mk eid n)) ∧
    Core.routeEvent wf (Core.routeEvent wf (Core.interruptedRoute wf s eid k) eid) eid
      = Core.routeEvent wf (Core.interruptedRoute wf s eid k) eid := by
  obtain ⟨he1, hev2, hq2, hfix⟩ := Core.route_crash_retry_facts wf s eid k ev hfind hpend
  refine ⟨?_, ?_, ?_, hfix⟩
  · unfold Core.eventStateOf
    rw [he1, hfind]
    simp [hpend]
  · unfold Core.eventStateOf
    rw [hev2, Core.find?_markRouted, hfind]
    rfl
  · rw [hq2]
    exact Core.routed_items_perm s.queueItems eid _ _ hfresh
      (fun n hn => List.take_subset _ _ hn) hnd

/-- Witness for C1 on the sample fan-out workflow, interrupted after one of two
QueueItems. -/
theorem routing_atomic_crash_retry_witness :
    Core.eventStateOf (Core.interruptedRoute Core.sampleWorkflow Core.sampleState 7 1) 7
      = some .pending ∧
    Core.eventStateOf
      (Core.routeEvent Core.sampleWorkflow
        (Core.interruptedRoute Core.sampleWorkflow Core.sampleState 7 1) 7) 7 = some .routed ∧
    (Core.itemsFor
        (Core.routeEvent Core.sampleWorkflow
          (Core.interruptedRoute Core.sampleWorkflow Core.sampleState 7 1) 7).queueItems 7).Perm
      ((Core.downstreamNodes Core.sampleWorkflow Core.sampleEvent).map
        (fun n => Core.QueueItem.mk 7 n)) ∧
    Core.routeEvent Core.sampleWorkflow
        (Core.routeEvent Core.sampleWorkflow
          (Core.interruptedRoute Core.sampleWorkflow Core.sampleState 7 1) 7) 7
      = Core.routeEvent Core.sampleWorkflow
          (Core.interruptedRoute Core.sampleWorkflow Core.sampleState 7 1) 7 :=
  routing_atomic_crash_retry Core.sampleWorkflow Core.sampleState 7 1 Core.sampleEvent
    (by decide) (by decide) (by decide) (by decide) (by decide)

/-- C2: routing is idempotent: after a crash that left k QueueItems and any
number of further routing passes on the still-pending Event, exactly N
QueueItems — one per matching downstream edge, deduplicated by the
(eventId, nodeId) uniqueness key — exist for the Event. -/
theorem routing_idempotent_exact_items (wf : Core.Workflow) (s : Core.RouterState)
    (eid k m : Nat) (ev : Core.Event)
    (hfind : s.events.find? (fun e => e.id == eid) = some ev)
    (hpend : ev.state = .pending)
    (hfresh : ∀ q ∈ s.queueItems, q.eventId ≠ eid)
    (hnd : (Core.downstreamNodes wf ev).Nodup) :
    (Core.itemsFor
        (((fun st => Core.routeEvent wf st eid)^[m + 1])
          (Core.interruptedRoute wf s eid k)).queueItems eid).length
      = (Core.downstreamNodes wf ev).length ∧
    (Core.itemsFor
        (((fun st => Core.routeEvent wf st eid)^[m + 1])
          (Core.interruptedRoute wf s eid k)).queueItems eid).Nodup := by
  obtain ⟨he1, hev2, hq2, hfix⟩ := Core.route_crash_retry_facts wf s eid k ev hfind hpend
  have hiter : ((fun st => Core.routeEvent wf st eid)^[m + 1])
      (Core.interruptedRoute wf s eid k) =
      Core.routeEvent wf (Core.interruptedRoute wf s eid k) eid := by
    rw [Function.iterate_succ_apply]
    exact Function.iterate_fixed (f := fun st => Core.routeEvent wf st eid) hfix m
  have hperm := Core.routed_items_perm s.queueItems eid
    ((Core.downstreamNodes wf ev).take k) (Core.downstreamNodes wf ev) hfresh
    (fun n hn => List.take_subset _ _ hn) hnd
  have hempty : Core.itemsFor s.queueItems eid = [] := by
    unfold Core.itemsFor
    rw [List.filter_eq_nil_iff]
    intro q hq
    simpa using hfresh q hq
  rw [hiter, hq2]
  refine ⟨?_, ?_⟩
  · rw [hperm.length_eq, List.length_map]
  · exact Core.itemsFor_addItems_nodup
      (Core.itemsFor_addItems_nodup (by rw [hempty]; exact List.nodup_nil))

/-- Witness for C2: three routing passes after an interrupted pass leave exactly
two deduplicated QueueItems for the sample event. -/
theorem routing_idempotent_exact_items_witness :
    (Core.itemsFor
        (((fun st => Core.routeEvent Core.sampleWorkflow st 7)^[2 + 1])
          (Core.interruptedRoute Core.sampleWorkflow Core.sampleState 7 1)).queueItems 7).length
      = (Core.downstreamNodes Core.sampleWorkflow Core.sampleEvent).length ∧
    (Core.itemsFor
        (((fun st => Core.routeEvent Core.sampleWorkflow st 7)^[2 + 1])
          (Core.interruptedRoute Core.sampleWorkflow Core.sampleState 7 1)).queueItems 7).Nodup :=
  routing_idempotent_exact_items Core.sampleWorkflow Core.sampleState 7 1 2 Core.sampleEvent
    (by decide) (by decide) (by decide) (by decide)

/-- C7: a pending Event whose origin node has zero matching downstream nodes is
marked routed with no QueueItems created, and the outcome is the ok branch of
the checked router, not an error. -/
theorem zero_downstream_terminal (wf : Core.Workflow) (s : Core.RouterState)
    (eid : Nat) (ev : Core.Event)
    (hfind : s.events.find? (fun e => e.id == eid) = some ev)
    (hpend : ev.state = .pending)
    (hzero : Core.downstreamNodes wf ev = []) :
    Core.routeEventChecked (some wf) s eid =
      .ok { events := Core.markRouted s.events eid, queueItems := s.queueItems } ∧
    Core.eventStateOf (Core.routeEvent wf s eid) eid = some .routed ∧
    (Core.routeEvent wf s eid).queueItems = s.queueItems := by
  have hroute := Core.routeEvent_pending wf hfind hpend
  rw [hzero] at hroute
  refine ⟨?_, ?_, ?_⟩
  · show Except.ok (Core.routeEvent wf s eid) = _
    rw [hroute]
    rfl
  · unfold Core.eventStateOf
    rw [hroute]
    show ((Core.markRouted s.events eid).find? (fun e => e.id == eid)).map (fun e => e.state) = _
    rw [Core.find?_markRouted, hfind]
    rfl
  · rw [hroute]
    rfl

/-- Witness for C7 at the isolated sample event. -/
theorem zero_downstream_terminal_witness :
    Core.routeEventChecked (some Core.sampleWorkflow) Core.isolatedState 8 =
      .ok { events := Core.markRouted Core.isolatedState.events 8
            queueItems := Core.isolatedState.queueItems } ∧
    Core.eventStateOf (Core.routeEvent Core.sampleWorkflow Core.isolatedState 8) 8
      = some .routed ∧
    (Core.routeEvent Core.sampleWorkflow Core.isolatedState 8).queueItems
      = Core.isolatedState.queueItems :=
  zero_downstream_terminal Core.sampleWorkflow Core.isolatedState 8 Core.isolatedEvent
    (by decide) (by decide) (by decide)

/-- C8: edge routing predicates are evaluated against the event's data with the
trigger-filter matching policy; with predicates equals "passed" and matches
^fail.*, data "passed" routes only to the first edge's node and
"failed-timeout" only to the second. -/
theorem edge_predicate_policy :
    Core.downstreamNodes
        ⟨[⟨0, 1, some (.equalsP "passed")⟩, ⟨0, 2, some (.matchesP Core.failPattern)⟩]⟩
        ⟨10, 1, 0, "passed", .pending⟩ = [1] ∧
    Core.downstreamNodes
        ⟨[⟨0, 1, some (.equalsP "passed")⟩, ⟨0, 2, some (.matchesP Core.failPattern)⟩]⟩
        ⟨11, 1, 0, "failed-timeout", .pending⟩ = [2] ∧
    (∀ (ed : Core.Edge) (e : Core.Event) (p : Core.Predicate), ed.pred = some p →
      Core.edgeMatches ed e = (ed.fromNode == e.nodeId && Core.matchesAnyPredicate [p] e.data)) := by
  refine ⟨by decide, by decide, ?_⟩
  intro ed e p h
  unfold Core.edgeMatches
  rw [h]

/-- Witness for C8: the regex edge evaluated on the failing payload agrees with
the trigger-filter policy. -/
theorem edge_predicate_policy_witness :
    Core.edgeMatches ⟨0, 2, some (.matchesP Core.failPattern)⟩ ⟨11, 1, 0, "failed-timeout", .pending⟩
      = ((0 : Nat) == (0 : Nat) && Core.matchesAnyPredicate [.matchesP Core.failPattern] "failed-timeout") :=
  edge_predicate_policy.2.2 ⟨0, 2, some (.matchesP Core.failPattern)⟩
    ⟨11, 1, 0, "failed-timeout", .pending⟩ (.matchesP Core.failPattern) rfl

/-- C9: re-running Setup on an already-configured node is a no-op — when the
stored metadata decodes to a record with a provisioned project, Setup returns
ok immediately, with no configuration validation, no project fetch, no metadata
write and no webhook request. -/
theorem setup_already_provisioned_noop
    (metadataDecode : Except String Semaphore.OnPipelineDoneMetadata)
    (configDecode : Except String Semaphore.OnPipelineDoneConfiguration)
    (newClientResult : Except String String)
    (getProject : String → Except String Semaphore.ProjectResponse)
    (metadataSetResult : Except String Unit)
    (requestWebhookResult : Except String Unit)
    (md : Semaphore.OnPipelineDoneMetadata) (p : Semaphore.Project)
    (hdec : metadataDecode = .ok md)
    (hproj : md.project = some p) :
    Semaphore.onPipelineDoneSetup metadataDecode configDecode newClientResult getProject
        metadataSetResult requestWebhookResult =
      { result := .ok (), projectFetched := false, metadataWritten := none
        webhookRequested := none } := by
  subst hdec
  unfold Semaphore.onPipelineDoneSetup
  simp [hproj]

/-- Witness for C9 on a concrete already-provisioned metadata record. -/
theorem setup_already_provisioned_noop_witness :
    Semaphore.onPipelineDoneSetup
        (.ok { project := some { id := "proj-123", name := "test-project", url := "u" } })
        (.error "unused") (.error "unused") (fun _ => .error "unused") (.ok ()) (.ok ()) =
      { result := .ok (), projectFetched := false, metadataWritten := none
        webhookRequested := none } :=
  setup_already_provisioned_noop _ _ _ _ _ _
    { project := some { id := "proj-123", name := "test-project", url := "u" } }
    { id := "proj-123", name := "test-project", url := "u" } rfl rfl

/-- C10: the webhook handler returns 403 and emits nothing when the signature
header is absent, when it is empty after stripping the sha256= prefix, or when
HMAC verification against the stored secret fails; an event is emitted only
when verification passed. -/
theorem webhook_signature_gate
    (configDecode : Except String Semaphore.OnPipelineDoneConfiguration)
    (sigHeader : String)
    (secretResult : Except String String)
    (verify : String → String → String → Bool)
    (body : String)
    (parseResult : Except String Semaphore.PipelinePayload)
    (emitResult : Except String Unit) :
    (∀ cfg, configDecode = .ok cfg → sigHeader = "" →
      (Semaphore.onPipelineDoneHandleWebhook configDecode sigHeader secretResult verify body
          parseResult emitResult).status = 403 ∧
      (Semaphore.onPipelineDoneHandleWebhook configDecode sigHeader secretResult verify body
          parseResult emitResult).emitCalled = false) ∧
    (∀ cfg, configDecode = .ok cfg → Semaphore.trimPrefixOf "sha256=" sigHeader = "" →
      (Semaphore.onPipelineDoneHandleWebhook configDecode sigHeader secretResult verify body
          parseResult emitResult).status = 403 ∧
      (Semaphore.onPipelineDoneHandleWebhook configDecode sigHeader secretResult verify body
          parseResult emitResult).emitCalled = false) ∧
    (∀ cfg secret, configDecode = .ok cfg → secretResult = .ok secret →
      verify secret body (Semaphore.trimPrefixOf "sha256=" sigHeader) = false →
      (Semaphore.onPipelineDoneHandleWebhook configDecode sigHeader secretResult verify body
          parseResult emitResult).status = 403 ∧
      (Semaphore.onPipelineDoneHandleWebhook configDecode sigHeader secretResult verify body
          parseResult emitResult).emitCalled = false) ∧
    ((Semaphore.onPipelineDoneHandleWebhook configDecode sigHeader secretResult verify body
        parseResult emitResult).emitCalled = true →
      ∃ cfg secret, configDecode = .ok cfg ∧ secretResult = .ok secret ∧
        sigHeader ≠ "" ∧ Semaphore.trimPrefixOf "sha256=" sigHeader ≠ "" ∧
        verify secret body (Semaphore.trimPrefixOf "sha256=" sigHeader) = true) := by
  refine ⟨?_, ?_, ?_, ?_⟩
  · intro cfg h1 h2
    subst h1
    subst h2
    exact ⟨rfl, rfl⟩
  · intro cfg h1 h2
    subst h1
    by_cases hs : sigHeader = ""
    · subst hs
      exact ⟨rfl, rfl⟩
    · have hred : Semaphore.onPipelineDoneHandleWebhook (.ok cfg) sigHeader secretResult verify
          body parseResult emitResult = ⟨403, true, false⟩ := by
        unfold Semaphore.onPipelineDoneHandleWebhook
        simp [hs, h2]
      rw [hred]
      exact ⟨rfl, rfl⟩
  · intro cfg secret h1 h2 h3
    subst h1
    subst h2
    by_cases hs : sigHeader = ""
    · subst hs
      exact ⟨rfl, rfl⟩
    · by_cases hstrip : Semaphore.trimPrefixOf "sha256=" sigHeader = ""
      · have hred : Semaphore.onPipelineDoneHandleWebhook (.ok cfg) sigHeader (.ok secret) verify
            body parseResult emitResult = ⟨403, true, false⟩ := by
          unfold Semaphore.onPipelineDoneHandleWebhook
          simp [hs, hstrip]
        rw [hred]
        exact ⟨rfl, rfl⟩
      · have hred : Semaphore.onPipelineDoneHandleWebhook (.ok cfg) sigHeader (.ok secret) verify
            body parseResult emitResult = ⟨403, true, false⟩ := by
          unfold Semaphore.onPipelineDoneHandleWebhook
          simp [hs, hstrip, h3]
        rw [hred]
        exact ⟨rfl, rfl⟩
  · intro h
    rcases configDecode with e | cfg
    · simp [Semaphore.onPipelineDoneHandleWebhook] at h
    · by_cases hs : sigHeader = ""
      · subst hs
        simp [Semaphore.onPipelineDoneHandleWebhook] at h
      · by_cases hstrip : Semaphore.trimPrefixOf "sha256=" sigHeader = ""
        · simp [Semaphore.onPipelineDoneHandleWebhook, hs, hstrip] at h
        · rcases secretResult with e2 | secret
          · simp [Semaphore.onPipelineDoneHandleWebhook, hs, hstrip] at h
          · cases hv : verify secret body (Semaphore.trimPrefixOf "sha256=" sigHeader) with
            | false => simp [Semaphore.onPipelineDoneHandleWebhook, hs, hstrip, hv] at h
            | true => exact ⟨cfg, secret, rfl, rfl, hs, hstrip, hv⟩

/-- Witness for C10: an absent signature header yields 403 with no emission. -/
theorem webhook_signature_gate_witness :
    (Semaphore.onPipelineDoneHandleWebhook (.ok ⟨"p", [], [], []⟩) "" (.ok "sec")
        (fun _ _ _ => true) "body" (.error "x") (.ok ())).status = 403 ∧
    (Semaphore.onPipelineDoneHandleWebhook (.ok ⟨"p", [], [], []⟩) "" (.ok "sec")
        (fun _ _ _ => true) "body" (.error "x") (.ok ())).emitCalled = false :=
  (webhook_signature_gate (.ok ⟨"p", [], [], []⟩) "" (.ok "sec") (fun _ _ _ => true) "body"
      (.error "x") (.ok ())).1 ⟨"p", [], [], []⟩ rfl rfl
